import Mathlib

/-!
Verification of the serial-upload protocol engine of `tudelft-serial-upload`.

The development shallowly embeds the protocol core of the repository:

* `src/crc.rs` — the non-standard 16-bit checksum (`calc_crc16`,
  `calc_crc16_default`);
* `src/serial.rs` — SLIP byte-stuffing (`escape`, `unescape`), the bit-packed
  4-byte header (`create_slip_header`), packet assembly (`create_packet`),
  the sequence-number counter (`next_sequence_number`, `send_data`), and the
  DFU control payloads (`send_start_dfu`, `send_init_packet`,
  `send_data_packet`, `send_stop_packet`, `try_do_upload`);
* `src/upload.rs` — the candidate-port loop of `upload_internal`.

Machine integers are modelled as `Nat` with explicit truncation (`% 256`,
`% 65536`) where the Rust types (`u8`, `u16`, `u32`) truncate.  I/O results
(acknowledgement reads, port-open and upload outcomes) are parameters of the
embedded functions, since they come from the outside world.  The Rust
`assert!` in `create_slip_header` and the `bail!` error paths are modelled
with `Option`/`Except`.
-/

namespace SerialUpload

/-! ### Checksum engine, from `src/crc.rs` -/

/-- One iteration of the loop body of `calc_crc16` (crc.rs lines 6–12),
acting on the `u16` accumulator (`% 65536` mirrors `u16` truncation of the
left shifts; right shifts and masks cannot overflow). -/
def crc16Step (crc b : Nat) : Nat :=
  let c1 := ((crc >>> 8) &&& 0x00FF) ||| (((crc <<< 8) % 65536) &&& 0xFF00)
  let c2 := c1 ^^^ b
  let c3 := c2 ^^^ ((c2 &&& 0x00FF) >>> 4)
  let c4 := c3 ^^^ ((((c3 <<< 8) % 65536) <<< 4) % 65536)
  let c5 := c4 ^^^ (((((c4 &&& 0x00FF) <<< 4) % 65536) <<< 1) % 65536)
  c5

/-- Embeds `calc_crc16` (crc.rs lines 4–15): fold `crc16Step` over the data,
starting from the seed (`0xffff` when absent). -/
def calc_crc16 (data : List Nat) (start : Option Nat) : Nat :=
  data.foldl crc16Step (start.getD 0xffff)

/-- Embeds `calc_crc16_default` (crc.rs lines 17–19). -/
def calc_crc16_default (data : List Nat) : Nat :=
  calc_crc16 data none

/-- Byte swap of a 16-bit accumulator, as the specification words it. -/
def byteSwap16 (x : Nat) : Nat :=
  ((x >>> 8) &&& 0x00FF) ||| (((x <<< 8) % 65536) &&& 0xFF00)

/-- Modelled from the specification's wording of the checksum step: byte-swap
the accumulator, XOR in the input byte, XOR with the accumulator's low byte
shifted right 4, XOR with the accumulator shifted left 8 then left 4 again,
XOR with the low byte shifted left 4 then left 1 (all on 16 bits). -/
def checksumStepSpec (acc b : Nat) : Nat :=
  let a1 := byteSwap16 acc
  let a2 := a1 ^^^ b
  let a3 := a2 ^^^ ((a2 &&& 0x00FF) >>> 4)
  let a4 := a3 ^^^ ((((a3 <<< 8) % 65536) <<< 4) % 65536)
  a4 ^^^ (((((a4 &&& 0x00FF) <<< 4) % 65536) <<< 1) % 65536)

/-- Modelled from the specification's wording of the whole checksum, seed
defaulting to `0xffff`. -/
def checksumSpec (data : List Nat) (seed : Option Nat) : Nat :=
  data.foldl checksumStepSpec (seed.getD 0xffff)

/-! ### SLIP byte-stuffing, from `src/serial.rs` -/

/-- The stuffing of one byte inside `escape` (serial.rs lines 113–119). -/
def escapeByte (b : Nat) : List Nat :=
  if b = 0xc0 then [0xdb, 0xdc]
  else if b = 0xdb then [0xdb, 0xdd]
  else [b]

/-- The loop of `escape` over the unescaped bytes (serial.rs lines 113–119). -/
def escapeBody : List Nat → List Nat
  | [] => []
  | b :: rest => escapeByte b ++ escapeBody rest

/-- Embeds `escape` (serial.rs lines 111–122): `0xc0` marker, stuffed body,
`0xc0` marker. -/
def escape (unescaped : List Nat) : List Nat :=
  0xc0 :: (escapeBody unescaped ++ [0xc0])

/-- Embeds `unescape` (serial.rs lines 124–140): `none` models the `bail!`
on an escape byte followed by anything other than `0xdc`/`0xdd` (including
nothing at all). -/
def unescape : List Nat → Option (List Nat)
  | [] => some []
  | b :: rest =>
    if b = 0xdb then
      match rest with
      | c :: r =>
        if c = 0xdc then (unescape r).map (fun t => 0xc0 :: t)
        else if c = 0xdd then (unescape r).map (fun t => 0xdb :: t)
        else none
      | [] => none
    else (unescape rest).map (fun t => b :: t)

/-- Decision of whether `unescape`'s parse hits a malformed escape: an
escape byte `0xdb` whose follower (in parse order) is neither `0xdc` nor
`0xdd`, or an escape byte with no follower at all. -/
def slipMalformed : List Nat → Bool
  | [] => false
  | b :: rest =>
    if b = 0xdb then
      match rest with
      | c :: r =>
        if c = 0xdc then slipMalformed r
        else if c = 0xdd then slipMalformed r
        else true
      | [] => true
    else slipMalformed rest

/-- Modelled from the specification's wording of decoding: map every
`[0xdb, 0xdc]` pair to `0xc0`, every `[0xdb, 0xdd]` pair to `0xdb`, and keep
all other bytes (total function; only meaningful on well-formed input). -/
def slipDecodeSpec : List Nat → List Nat
  | [] => []
  | b :: rest =>
    if b = 0xdb then
      match rest with
      | c :: r =>
        if c = 0xdc then 0xc0 :: slipDecodeSpec r
        else if c = 0xdd then 0xdb :: slipDecodeSpec r
        else slipDecodeSpec r
      | [] => []
    else b :: slipDecodeSpec rest

/-- Modelled from the claim's wording: the input contains an escape byte
`0xdb` that is followed by a byte other than `0xdc`/`0xdd` (checked over all
adjacent positions; a trailing `0xdb` followed by nothing does not count). -/
def hasWrongFollowedEscape : List Nat → Bool
  | [] => false
  | [_] => false
  | b :: c :: r =>
    if b = 0xdb ∧ ¬ (c = 0xdc ∨ c = 0xdd) then true
    else hasWrongFollowedEscape (c :: r)

/-! ### Header, packets and the sequence counter, from `src/serial.rs` -/

/-- Little-endian bytes of a `u16`, as `u16::to_le_bytes` produces them. -/
def toLeBytes16 (x : Nat) : List Nat :=
  [x % 256, (x / 256) % 256]

/-- The sequence number a `Serial` session starts with
(`sequence_number: 0` in `Serial::open`, serial.rs line 54). -/
def initial_sequence_number : Nat := 0

/-- Embeds `next_sequence_number` (serial.rs lines 58–61): increment the
counter modulo 8, store it back, and return it (returned value, new state). -/
def next_sequence_number (s : Nat) : Nat × Nat :=
  ((s + 1) % 8, (s + 1) % 8)

/-- Byte 0 of the SLIP header (serial.rs line 78): sequence number,
`(seq+1) % 8` shifted left 3, integrity flag at bit 6, reliable flag at
bit 7. -/
def slip_b1 (seq : Nat) : Nat :=
  seq ||| (((seq + 1) % 8) <<< 3) ||| (1 <<< 6) ||| (1 <<< 7)

/-- Byte 1 of the SLIP header (serial.rs line 79): packet type 14 plus the
low nibble of the packet length shifted into the high nibble (`% 256` mirrors
the `as u8` cast). -/
def slip_b2 (pkt_len : Nat) : Nat :=
  (14 ||| ((pkt_len &&& 0x00f) <<< 4)) % 256

/-- Byte 2 of the SLIP header (serial.rs line 80): bits 4–11 of the packet
length (`% 256` mirrors the `as u8` cast). -/
def slip_b3 (pkt_len : Nat) : Nat :=
  ((pkt_len &&& 0xff0) >>> 4) % 256

/-- Byte 3 of the SLIP header (serial.rs line 87): bitwise complement of the
wrapping sum of the first three bytes, plus one, wrapping (`u8`). -/
def slip_b4 (seq pkt_len : Nat) : Nat :=
  (255 - ((slip_b1 seq + slip_b2 pkt_len + slip_b3 pkt_len) % 256) + 1) % 256

/-- The four header bytes of `create_slip_header` (serial.rs lines 82–88). -/
def slip_header_bytes (seq pkt_len : Nat) : List Nat :=
  [slip_b1 seq, slip_b2 pkt_len, slip_b3 pkt_len, slip_b4 seq pkt_len]

/-- Embeds `create_slip_header` (serial.rs lines 65–91) on the session state
`s` (the current sequence number): `none` models the `assert!(pkt_len <
0x1000)` panic; otherwise the header bytes, the sequence number used, and the
new session state. -/
def create_slip_header (s pkt_len : Nat) : Option ((List Nat × Nat) × Nat) :=
  if pkt_len < 0x1000 then
    let seq := (next_sequence_number s).1
    some ((slip_header_bytes seq pkt_len, seq), (next_sequence_number s).2)
  else none

/-- Embeds `create_packet` (serial.rs lines 97–109): header, then data, then
the little-endian default checksum of header-plus-data, all byte-stuffed. -/
def create_packet (s : Nat) (data : List Nat) : Option ((List Nat × Nat) × Nat) :=
  match create_slip_header s data.length with
  | none => none
  | some ((header, seq_nr), s2) =>
    let temp_res := header ++ data
    let full := temp_res ++ toLeBytes16 (calc_crc16_default temp_res)
    some ((escape full, seq_nr), s2)

/-- The unstuffed packet body for state `s`: header, payload, little-endian
checksum of header-plus-payload (what `create_packet` builds before
`escape`). -/
def packet_body (seq : Nat) (data : List Nat) : List Nat :=
  (slip_header_bytes seq data.length ++ data) ++
    toLeBytes16 (calc_crc16_default (slip_header_bytes seq data.length ++ data))

/-- The error outcomes of `send_data` (serial.rs lines 142–160): transport
failure or an acknowledgement carrying the wrong sequence number. -/
inductive SendError
  | ioError
  | invalidSequence

/-- Embeds `send_data` (serial.rs lines 142–160) on session state `s`.  The
acknowledgement read (`wait_for_ack`) is I/O, so its result is the parameter
`ackResult`: a transport error, or the sequence number reported by the
acknowledgement.  `none` models the `assert!` panic of the header builder;
otherwise the result (`ok`, or the `bail!` on a wrong sequence number) and
the new session state. -/
def send_data (s : Nat) (data : List Nat) (ackResult : Except Unit Nat) :
    Option (Except SendError Unit × Nat) :=
  match create_packet s data with
  | none => none
  | some ((_packet, seq_nr), s2) =>
    match ackResult with
    | .error _ => some (.error .ioError, s2)
    | .ok res =>
      if res = (seq_nr + 1) % 8 then some (.ok (), s2)
      else some (.error .invalidSequence, s2)

/-- The sequence-number state after `k` outbound frames of one session,
starting from `initial_sequence_number` and advancing with
`next_sequence_number` per frame (the value after the `k`-th send is also
the sequence number assigned to that send). -/
def seq_state_after : Nat → Nat
  | 0 => initial_sequence_number
  | k + 1 => (next_sequence_number (seq_state_after k)).2

/-! ### DFU control payloads, from `src/serial.rs` -/

/-- Constant `DFU_INIT_PACKET` (serial.rs line 14). -/
def DFU_INIT_PACKET : Nat := 1

/-- Constant `DFU_START_PACKET` (serial.rs line 15). -/
def DFU_START_PACKET : Nat := 3

/-- Constant `DFU_DATA_PACKET` (serial.rs line 16). -/
def DFU_DATA_PACKET : Nat := 4

/-- Constant `DFU_STOP_DATA_PACKET` (serial.rs line 17). -/
def DFU_STOP_DATA_PACKET : Nat := 5

/-- Constant `DFU_MAX_PACKET_SIZE` (serial.rs line 18). -/
def DFU_MAX_PACKET_SIZE : Nat := 512

/-- Embeds `encode_int` (serial.rs lines 93–95): the four little-endian
bytes of a `u32`. -/
def encode_int (i : Nat) : List Nat :=
  [i % 256, (i / 256) % 256, (i / 65536) % 256, (i / 16777216) % 256]

/-- The payload built by `send_start_dfu` (serial.rs lines 193–205). -/
def start_dfu_payload (file_size : Nat) : List Nat :=
  encode_int DFU_START_PACKET ++ encode_int 4 ++ encode_int 0 ++ encode_int 0 ++
    encode_int file_size

/-- The payload built by `send_init_packet` (serial.rs lines 207–221): type
tag, twelve fixed bytes, little-endian checksum of the whole image, and two
zero padding bytes. -/
def init_packet_payload (file : List Nat) : List Nat :=
  encode_int DFU_INIT_PACKET ++
    [0xff, 0xff, 0xff, 0xff, 0xff, 0xff, 0xff, 0xff, 0x01, 0x00, 0xfe, 0xff] ++
    toLeBytes16 (calc_crc16_default file) ++ [0, 0]

/-- The payload built by `send_data_packet` (serial.rs lines 232–241). -/
def data_packet_payload (data : List Nat) : List Nat :=
  encode_int DFU_DATA_PACKET ++ data

/-- The payload built by `send_stop_packet` (serial.rs lines 223–230). -/
def stop_packet_payload : List Nat :=
  encode_int DFU_STOP_DATA_PACKET

/-- Consecutive chunks of at most `DFU_MAX_PACKET_SIZE = 512` bytes, as
`file.chunks(DFU_MAX_PACKET_SIZE)` yields them in `try_do_upload`
(serial.rs line 263): the empty list has no chunks, otherwise the first 512
bytes followed by the chunks of the rest. -/
def chunksOf512 : List Nat → List (List Nat)
  | [] => []
  | b :: rest => ((b :: rest).take 512) :: chunksOf512 ((b :: rest).drop 512)
  termination_by l => l.length
  decreasing_by
    simp [List.length_drop]
    omega

/-- The ordered sequence of DFU payloads sent by `try_do_upload`
(serial.rs lines 243–282), abstracting the transport writes, settle delays
and acknowledgements (I/O): start packet, init packet, one data packet per
512-byte chunk of the image in order, stop packet. -/
def try_do_upload_payloads (file : List Nat) : List (List Nat) :=
  start_dfu_payload file.length :: init_packet_payload file ::
    ((chunksOf512 file).map data_packet_payload ++ [stop_packet_payload])

/-! ### Candidate-port loop, from `src/upload.rs` -/

/-- The outcome of attempting one candidate port, supplied as input since it
is I/O: `Serial::open` failed, `try_do_upload` failed, or the attempt
succeeded (in a dry run a successful open already counts as success). -/
inductive CandOutcome
  | openErr
  | uploadErr
  | ok

/-- Whether a candidate outcome is the successful one. -/
def isOk : CandOutcome → Bool
  | .ok => true
  | _ => false

/-- The overall result of `upload_internal`'s loop (upload.rs lines
146–183), with candidates identified by their index in the candidate list:
success on a candidate, an immediate return of one candidate's error, or the
aggregate "none of the ports tried worked" error carrying the recorded
per-candidate errors. -/
inductive UploadResult
  | success (idx : Nat)
  | failImmediate (idx : Nat)
  | allFailed (recorded : List Nat)
deriving DecidableEq

/-- Embeds the loop of `upload_internal` (upload.rs lines 149–183): `i` is
the index of the next candidate, `errs` the indices of the errors recorded
(and warned about) so far, and the list holds the remaining candidates'
outcomes.  The open-failure branch (lines 152–159) and the upload-failure
branch (lines 166–176) of the source apply the same policy, so both
non-`ok` outcomes share the else branch here.  Returns the result together
with the indices for which a warning was printed. -/
def upload_loop (stopFirst : Bool) (numPorts : Nat) :
    Nat → List Nat → List CandOutcome → UploadResult × List Nat
  | _, errs, [] => (.allFailed errs, errs)
  | i, errs, c :: rest =>
    if isOk c then (.success i, errs)
    else if stopFirst || numPorts == 1 then (.failImmediate i, errs)
    else upload_loop stopFirst numPorts (i + 1) (errs ++ [i]) rest

/-- Embeds `upload_internal`'s candidate iteration (upload.rs lines
146–183) given the per-candidate outcomes: run the loop from index 0 with no
recorded errors, with `num_ports` the length of the candidate list. -/
def upload_internal (stopFirst : Bool) (cands : List CandOutcome) :
    UploadResult × List Nat :=
  upload_loop stopFirst cands.length 0 [] cands

/-- The index of the first successful candidate, if any. -/
def firstOk : List CandOutcome → Option Nat
  | [] => none
  | c :: rest => if isOk c then some 0 else (firstOk rest).map (· + 1)

/-! ### Theorems -/

theorem xor16_lt {x y : Nat} (hx : x < 65536) (hy : y < 65536) : x ^^^ y < 65536 := by
  have e : (65536 : Nat) = 2 ^ 16 := by norm_num
  rw [e] at hx hy ⊢
  exact Nat.xor_lt_two_pow hx hy

theorem and255_shr4_lt (x : Nat) : (x &&& 0x00FF) >>> 4 < 65536 := by
  have h1 : x &&& 0x00FF ≤ 0x00FF := Nat.and_le_right
  have h2 : (x &&& 0x00FF) >>> 4 ≤ x &&& 0x00FF := by
    rw [Nat.shiftRight_eq_div_pow]
    exact Nat.div_le_self _ _
  omega

theorem crc16Step_lt (crc b : Nat) (hb : b < 65536) : crc16Step crc b < 65536 := by
  simp only [crc16Step]
  refine xor16_lt (xor16_lt (xor16_lt (xor16_lt ?_ hb) (and255_shr4_lt _)) ?_) ?_
  · have e : (65536 : Nat) = 2 ^ 16 := by norm_num
    rw [e]
    exact Nat.or_lt_two_pow (Nat.and_lt_two_pow _ (by norm_num))
      (Nat.and_lt_two_pow _ (by norm_num))
  · exact Nat.mod_lt _ (by norm_num)
  · exact Nat.mod_lt _ (by norm_num)

theorem foldl_crc16Step_lt (data : List Nat) :
    ∀ acc, acc < 65536 → (∀ b ∈ data, b < 256) → data.foldl crc16Step acc < 65536 := by
  induction data with
  | nil => intro acc h _; simpa using h
  | cons b rest ih =>
    intro acc _ hd
    simp only [List.foldl_cons]
    exact ih _ (crc16Step_lt _ _ (lt_trans (hd b (by simp)) (by norm_num)))
      (fun x hx => hd x (by simp [hx]))

/-- C1: for every byte sequence and every optional 16-bit seed (defaulting to
`0xffff`), `calc_crc16` performs, per input byte, exactly the byte-swap and
the four XOR-shift mixing steps described by the specification, and its
result is a deterministic 16-bit value with no error conditions. -/
theorem calc_crc16_spec_conformance (data : List Nat) (seed : Option Nat)
    (hdata : ∀ b ∈ data, b < 256) (hseed : ∀ s ∈ seed, s < 65536) :
    calc_crc16 data seed = checksumSpec data seed ∧ calc_crc16 data seed < 65536 := by
  refine ⟨rfl, ?_⟩
  unfold calc_crc16
  apply foldl_crc16Step_lt data _ _ hdata
  cases seed with
  | none => norm_num [Option.getD]
  | some s => simpa using hseed s rfl

/-- Witness for C1 at the concrete input `[0x12, 0x34]` with no seed. -/
theorem calc_crc16_spec_conformance_witness :
    calc_crc16 [18, 52] none = checksumSpec [18, 52] none ∧ calc_crc16 [18, 52] none < 65536 :=
  calc_crc16_spec_conformance [18, 52] none (by decide) (by simp)

theorem unescape_cons_ne (b : Nat) (t : List Nat) (h : ¬ b = 219) :
    unescape (b :: t) = (unescape t).map (fun u => b :: u) := by
  rw [unescape.eq_def]
  simp [h]

theorem unescape_esc_c0 (r : List Nat) :
    unescape (219 :: 220 :: r) = (unescape r).map (fun u => 192 :: u) := by
  rw [unescape.eq_def]
  simp

theorem unescape_esc_db (r : List Nat) :
    unescape (219 :: 221 :: r) = (unescape r).map (fun u => 219 :: u) := by
  rw [unescape.eq_def]
  simp

theorem unescape_escapeByte (b : Nat) (t : List Nat) :
    unescape (escapeByte b ++ t) = (unescape t).map (fun u => b :: u) := by
  unfold escapeByte
  split
  · subst_vars
    simpa using unescape_esc_c0 t
  · split
    · subst_vars
      simpa using unescape_esc_db t
    · rename_i h1 h2
      simpa using unescape_cons_ne b t h2

theorem unescape_escapeBody (l : List Nat) : unescape (escapeBody l) = some l := by
  induction l with
  | nil => rfl
  | cons b rest ih =>
    simp [escapeBody, unescape_escapeByte, ih]

theorem strip_markers_escape (l : List Nat) :
    ((escape l).drop 1).dropLast = escapeBody l := by
  simp [escape]

theorem unescape_strip_escape (l : List Nat) :
    unescape (((escape l).drop 1).dropLast) = some l := by
  rw [strip_markers_escape]
  exact unescape_escapeBody l

theorem unescape_characterization (l : List Nat) :
    unescape l = if slipMalformed l = true then none else some (slipDecodeSpec l) := by
  induction l using slipMalformed.induct with
  | case1 => rfl
  | case2 r ih =>
    rw [unescape.eq_def, slipMalformed.eq_def, slipDecodeSpec.eq_def]
    simp [ih]
    split <;> simp
  | case3 r hne ih =>
    rw [unescape.eq_def, slipMalformed.eq_def, slipDecodeSpec.eq_def]
    simp [ih]
    split <;> simp
  | case4 c r hc1 hc2 =>
    rw [unescape.eq_def, slipMalformed.eq_def]
    simp [hc1, hc2]
  | case5 => decide
  | case6 b rest hb ih =>
    rw [unescape.eq_def, slipMalformed.eq_def, slipDecodeSpec.eq_def]
    simp [hb, ih]
    split <;> simp

theorem hasWrong_cons_ne (c : Nat) (r : List Nat) (hc : ¬ c = 219) :
    hasWrongFollowedEscape (c :: r) = hasWrongFollowedEscape r := by
  cases r with
  | nil => rfl
  | cons d r2 =>
    rw [hasWrongFollowedEscape.eq_def]
    simp [hc]

theorem slipMalformed_false_no_wrong (l : List Nat) (h : slipMalformed l = false) :
    hasWrongFollowedEscape l = false := by
  induction l using slipMalformed.induct with
  | case1 => rfl
  | case2 r ih =>
    rw [slipMalformed.eq_def] at h
    simp at h
    rw [hasWrongFollowedEscape.eq_def]
    simp [hasWrong_cons_ne 220 r (by norm_num), ih h]
  | case3 r hne ih =>
    rw [slipMalformed.eq_def] at h
    simp at h
    rw [hasWrongFollowedEscape.eq_def]
    simp [hasWrong_cons_ne 221 r (by norm_num), ih h]
  | case4 c r hc1 hc2 =>
    rw [slipMalformed.eq_def] at h
    simp [hc1, hc2] at h
  | case5 =>
    rw [slipMalformed.eq_def] at h
    simp at h
  | case6 b rest hb ih =>
    rw [slipMalformed.eq_def] at h
    simp [hb] at h
    rw [hasWrong_cons_ne b rest hb]
    exact ih h

theorem unescape_append_219 (l : List Nat) : unescape (l ++ [219]) = none := by
  rw [unescape_characterization]
  suffices h : slipMalformed (l ++ [219]) = true by simp [h]
  induction l using slipMalformed.induct with
  | case1 => decide
  | case2 r ih =>
    rw [slipMalformed.eq_def]
    simpa using ih
  | case3 r hne ih =>
    rw [slipMalformed.eq_def]
    simpa using ih
  | case4 c r hc1 hc2 =>
    rw [slipMalformed.eq_def]
    simp [hc1, hc2]
  | case5 => decide
  | case6 b rest hb ih =>
    rw [slipMalformed.eq_def]
    cases rest with
    | nil =>
      simp [hb]
      decide
    | cons d r2 =>
      simp [hb]
      exact ih

/-- C5 counterexample: the input `[0xdb]` contains no escape byte followed by
a wrong byte (no byte follows at all), yet decoding fails rather than
succeeding as the claim's success condition states. -/
theorem unescape_trailing_not_wrong_followed :
    hasWrongFollowedEscape [219] = false ∧ unescape [219] = none := by
  decide

/-- C5 (amended): decoding fails exactly when the parse hits a malformed
escape — an escape byte `0xdb` followed by a byte other than `0xdc`/`0xdd`,
or an escape byte with nothing following (truncated escape); otherwise it
succeeds and maps every `[0xdb, 0xdc]` pair to `0xc0` and every
`[0xdb, 0xdd]` pair to `0xdb`.  In particular any input containing a
wrongly-followed escape byte fails. -/
theorem unescape_malformed_characterization (l : List Nat) :
    unescape l = (if slipMalformed l = true then none else some (slipDecodeSpec l)) ∧
      (hasWrongFollowedEscape l = true → slipMalformed l = true) := by
  refine ⟨unescape_characterization l, fun h => ?_⟩
  by_contra hc
  have := slipMalformed_false_no_wrong l (by simpa using hc)
  simp [this] at h

/-- Witness for C5's amended claim at the concrete input `[0xdb, 0x05]`. -/
theorem unescape_malformed_characterization_witness :
    (unescape [219, 5] =
      (if slipMalformed [219, 5] = true then none else some (slipDecodeSpec [219, 5]))) ∧
      slipMalformed [219, 5] = true :=
  ⟨(unescape_malformed_characterization [219, 5]).1,
    (unescape_malformed_characterization [219, 5]).2 (by decide)⟩

/-- C10: decoding an input whose final byte is the escape byte `0xdb` (a
truncated escape sequence) fails with a framing error, just as a
wrongly-followed escape byte does. -/
theorem unescape_trailing_escape_fails (l : List Nat) (h : l.getLast? = some 219) :
    unescape l = none := by
  obtain ⟨l2, rfl⟩ := List.getLast?_eq_some_iff.1 h
  exact unescape_append_219 l2

/-- Witness for C10 at the concrete input `[0x01, 0xdb]`. -/
theorem unescape_trailing_escape_fails_witness :
    unescape [1, 219] = none :=
  unescape_trailing_escape_fails [1, 219] (by decide)

theorem create_packet_eq (s : Nat) (data : List Nat) (h : data.length < 0x1000) :
    create_packet s data =
      some ((escape (packet_body ((s + 1) % 8) data), (s + 1) % 8), (s + 1) % 8) := by
  simp [create_packet, create_slip_header, h, next_sequence_number, packet_body]

/-- C2: encoding a payload (4-byte header, payload, 2-byte little-endian
checksum of header-plus-payload, byte-stuffed and wrapped in `0xc0`
markers), then stripping exactly the first and last marker byte and
unescaping the remainder, yields exactly the original
header-plus-payload-plus-checksum bytes (unescape after marker-strip is a
left inverse of escape). -/
theorem create_packet_roundtrip (s : Nat) (data : List Nat)
    (h : data.length < 0x1000) :
    ∃ pkt, create_packet s data = some ((pkt, (s + 1) % 8), (s + 1) % 8) ∧
      pkt = escape (packet_body ((s + 1) % 8) data) ∧
      unescape ((pkt.drop 1).dropLast) = some (packet_body ((s + 1) % 8) data) :=
  ⟨escape (packet_body ((s + 1) % 8) data), create_packet_eq s data h, rfl,
    unescape_strip_escape _⟩

/-- Witness for C2 at session state 0 and the one-byte payload `[0xc0]`
(which needs escaping). -/
theorem create_packet_roundtrip_witness :
    ∃ pkt, create_packet 0 [192] = some ((pkt, 1), 1) ∧
      pkt = escape (packet_body 1 [192]) ∧
      unescape ((pkt.drop 1).dropLast) = some (packet_body 1 [192]) :=
  create_packet_roundtrip 0 [192] (by decide)

theorem slip_b1_bits (s : Nat) (hs : s < 8) :
    slip_b1 s &&& 7 = s ∧ (slip_b1 s >>> 3) &&& 7 = (s + 1) % 8 ∧
      (slip_b1 s >>> 6) &&& 1 = 1 ∧ (slip_b1 s >>> 7) &&& 1 = 1 := by
  interval_cases s <;> decide

set_option maxRecDepth 2000 in
theorem nibble_facts :
    ∀ q < 256, ∀ r < 16, (16 * q + r) &&& 0x00f = r ∧ (16 * q + r) &&& 0xff0 = 16 * q := by
  decide

theorem b2_or_facts :
    ∀ m < 16, ((14 ||| (m <<< 4)) % 256) &&& 0x00f = 14 ∧
      ((14 ||| (m <<< 4)) % 256) >>> 4 = m := by
  decide

theorem and_0xf_eq_mod (n : Nat) : n &&& 0x00f = n % 16 := by
  have h := Nat.and_pow_two_sub_one_eq_mod n 4
  norm_num at h
  exact h

theorem and_0xff0_eq (n : Nat) (hn : n < 0x1000) : n &&& 0xff0 = 16 * (n / 16) := by
  have hq : n / 16 < 256 := by omega
  have hr : n % 16 < 16 := Nat.mod_lt _ (by norm_num)
  have hn2 : 16 * (n / 16) + n % 16 = n := by omega
  have h := (nibble_facts (n / 16) hq (n % 16) hr).2
  rw [hn2] at h
  exact h

theorem slip_b2_bits (n : Nat) :
    slip_b2 n &&& 0x00f = 14 ∧ slip_b2 n >>> 4 = n &&& 0x00f := by
  have hm : n &&& 0x00f < 16 := by
    have := Nat.and_le_right (n := n) (m := 0x00f)
    omega
  exact ⟨(b2_or_facts (n &&& 0x00f) hm).1, (b2_or_facts (n &&& 0x00f) hm).2⟩

theorem slip_b3_eq (n : Nat) (hn : n < 0x1000) : slip_b3 n = n >>> 4 := by
  unfold slip_b3
  rw [and_0xff0_eq n hn, Nat.shiftRight_eq_div_pow, Nat.shiftRight_eq_div_pow]
  norm_num
  omega

/-- C3: for every assigned sequence number `s < 8` and payload length
`n < 0x1000`, the 4-byte header produced by `create_slip_header` has byte 0
carrying `s` in bits 0–2, `(s+1) % 8` in bits 3–5 and set flags in bits 6
and 7; byte 1 carrying packet type 14 in the low nibble and the low 4 bits
of `n` in the high nibble; byte 2 carrying the high 8 bits of `n`; and
byte 3 the two's complement of the sum of the first three bytes, so the four
bytes sum to 0 modulo 256. -/
theorem slip_header_layout (s n : Nat) (hs : s < 8) (hn : n < 0x1000) :
    slip_header_bytes s n = [slip_b1 s, slip_b2 n, slip_b3 n, slip_b4 s n] ∧
    slip_b1 s &&& 7 = s ∧
    (slip_b1 s >>> 3) &&& 7 = (s + 1) % 8 ∧
    (slip_b1 s >>> 6) &&& 1 = 1 ∧
    (slip_b1 s >>> 7) &&& 1 = 1 ∧
    slip_b2 n &&& 0x00f = 14 ∧
    slip_b2 n >>> 4 = n &&& 0x00f ∧
    slip_b3 n = n >>> 4 ∧
    slip_b4 s n = (256 - (slip_b1 s + slip_b2 n + slip_b3 n) % 256) % 256 ∧
    (slip_b1 s + slip_b2 n + slip_b3 n + slip_b4 s n) % 256 = 0 := by
  obtain ⟨h1, h2, h3, h4⟩ := slip_b1_bits s hs
  obtain ⟨h5, h6⟩ := slip_b2_bits n
  refine ⟨rfl, h1, h2, h3, h4, h5, h6, slip_b3_eq n hn, ?_, ?_⟩
  · unfold slip_b4
    omega
  · unfold slip_b4
    omega

/-- Witness for C3 at sequence number 2 and payload length `0x123`. -/
theorem slip_header_layout_witness :
    slip_header_bytes 2 291 = [slip_b1 2, slip_b2 291, slip_b3 291, slip_b4 2 291] ∧
    slip_b1 2 &&& 7 = 2 ∧
    (slip_b1 2 >>> 3) &&& 7 = (2 + 1) % 8 ∧
    (slip_b1 2 >>> 6) &&& 1 = 1 ∧
    (slip_b1 2 >>> 7) &&& 1 = 1 ∧
    slip_b2 291 &&& 0x00f = 14 ∧
    slip_b2 291 >>> 4 = 291 &&& 0x00f ∧
    slip_b3 291 = 291 >>> 4 ∧
    slip_b4 2 291 = (256 - (slip_b1 2 + slip_b2 291 + slip_b3 291) % 256) % 256 ∧
    (slip_b1 2 + slip_b2 291 + slip_b3 291 + slip_b4 2 291) % 256 = 0 :=
  slip_header_layout 2 291 (by decide) (by decide)

/-- C4: within one session the sequence counter starts at 0, is advanced
modulo 8 before each outbound frame (so after `k` sends the counter, equal to
the `k`-th assigned sequence number, is `k % 8`, giving the cycle
1,2,3,4,5,6,7,0,1,…), always stays below 8, and a send from state `s`
(assigned number `(s+1) % 8`) returns success exactly when the
acknowledgement reports `((s+1) % 8 + 1) % 8`, and the invalid-sequence
error otherwise (surfaced to the caller, not retried internally). -/
theorem sequence_counter_behaviour :
    (∀ k, seq_state_after k = k % 8 ∧ seq_state_after k < 8) ∧
    (∀ s data ack, data.length < 0x1000 →
      send_data s data (.ok ack) =
        some ((if ack = (((s + 1) % 8) + 1) % 8 then .ok () else .error .invalidSequence),
          (s + 1) % 8)) := by
  constructor
  · intro k
    induction k with
    | zero => exact ⟨rfl, by decide⟩
    | succ k ih =>
      obtain ⟨h1, _⟩ := ih
      constructor
      · simp only [seq_state_after, next_sequence_number, h1]
        omega
      · simp only [seq_state_after, next_sequence_number]
        omega
  · intro s data ack h
    rw [send_data, create_packet_eq s data h]
    split
    · rename_i heq
      simp at heq
    · rename_i heq
      simp only [Option.some.injEq, Prod.mk.injEq] at heq
      obtain ⟨⟨e1, e2⟩, e3⟩ := heq
      subst e2
      subst e3
      split_ifs with hif <;> simp [hif]
      omega

/-- Witness for C4: the counter state after 10 sends, and a send from state
0 (assigned sequence number 1) acknowledged with 2, which succeeds. -/
theorem sequence_counter_behaviour_witness :
    (seq_state_after 10 = 10 % 8 ∧ seq_state_after 10 < 8) ∧
    send_data 0 [7] (.ok 2) =
      some ((if 2 = (((0 + 1) % 8) + 1) % 8 then .ok () else .error .invalidSequence),
        (0 + 1) % 8) :=
  ⟨sequence_counter_behaviour.1 10, sequence_counter_behaviour.2 0 [7] 2 (by decide)⟩

/-- C8: the Init control payload is the type tag 1 (as a little-endian
`u32`), the twelve fixed bytes `0xff × 8`, `0x0001` little-endian and
`0xfffe` little-endian, then the 16-bit checksum of the entire image (not of
the init payload) in little-endian, then exactly two zero padding bytes. -/
theorem init_packet_layout (file : List Nat) :
    init_packet_payload file =
      [1, 0, 0, 0] ++
        ([0xff, 0xff, 0xff, 0xff, 0xff, 0xff, 0xff, 0xff] ++ ([0x01, 0x00] ++ [0xfe, 0xff])) ++
        (toLeBytes16 (calc_crc16 file none) ++ [0, 0]) ∧
    (init_packet_payload file).length = 20 ∧
    (init_packet_payload file).drop 16 = toLeBytes16 (calc_crc16_default file) ++ [0, 0] :=
  ⟨rfl, rfl, rfl⟩

theorem escapeByte_no_c0 (x : Nat) : ∀ b ∈ escapeByte x, b ≠ 192 := by
  unfold escapeByte
  split
  · decide
  · split
    · decide
    · rename_i h1 h2
      simpa using h1

theorem escapeBody_no_c0 (l : List Nat) : ∀ b ∈ escapeBody l, b ≠ 192 := by
  induction l with
  | nil => simp [escapeBody]
  | cons x rest ih =>
    intro b hb
    rw [escapeBody] at hb
    rcases List.mem_append.1 hb with h | h
    · exact escapeByte_no_c0 x b h
    · exact ih b h

/-- C9: the checksum computation and the frame-encoding path are total: for
every session state and every payload shorter than `0x1000` bytes,
`create_packet` returns a well-formed stuffed frame — it starts and ends
with the `0xc0` marker and contains no literal `0xc0` in between — without
reaching the assertion or any error branch. -/
theorem encode_path_total (s : Nat) (data : List Nat) (h : data.length < 0x1000) :
    ∃ pkt, create_packet s data = some ((pkt, (s + 1) % 8), (s + 1) % 8) ∧
      pkt.head? = some 0xc0 ∧ pkt.getLast? = some 0xc0 ∧
      ∀ b ∈ (pkt.drop 1).dropLast, b ≠ 0xc0 := by
  refine ⟨escape (packet_body ((s + 1) % 8) data), create_packet_eq s data h, rfl, ?_, ?_⟩
  · rw [escape, ← List.cons_append, List.getLast?_concat]
  · rw [strip_markers_escape]
    exact escapeBody_no_c0 _

/-- Witness for C9 at session state 0 and the empty payload. -/
theorem encode_path_total_witness :
    ∃ pkt, create_packet 0 [] = some ((pkt, 1), 1) ∧
      pkt.head? = some 0xc0 ∧ pkt.getLast? = some 0xc0 ∧
      ∀ b ∈ (pkt.drop 1).dropLast, b ≠ 0xc0 :=
  encode_path_total 0 [] (by decide)

theorem chunksOf512_cons_ne_nil (l : List Nat) (h : l ≠ []) :
    chunksOf512 l = l.take 512 :: chunksOf512 (l.drop 512) := by
  cases l with
  | nil => exact absurd rfl h
  | cons b rest => rw [chunksOf512]

theorem chunksOf512_flatten (l : List Nat) : (chunksOf512 l).flatten = l := by
  induction l using chunksOf512.induct with
  | case1 => simp [chunksOf512]
  | case2 b rest ih =>
    rw [chunksOf512]
    simp only [List.flatten_cons, ih, List.take_append_drop]

theorem chunksOf512_dropLast_length (l : List Nat) :
    ∀ c ∈ (chunksOf512 l).dropLast, c.length = 512 := by
  induction l using chunksOf512.induct with
  | case1 => simp [chunksOf512]
  | case2 b rest ih =>
    rw [chunksOf512]
    cases hd : chunksOf512 ((b :: rest).drop 512) with
    | nil => simp
    | cons c cs =>
      rw [hd] at ih
      intro x hx
      rw [List.dropLast_cons_of_ne_nil (by simp)] at hx
      rcases List.mem_cons.1 hx with h1 | h1
      · subst h1
        have hne : (b :: rest).drop 512 ≠ [] := by
          intro he
          rw [he] at hd
          simp [chunksOf512] at hd
        have hlen : 512 < (b :: rest).length := by
          by_contra hc
          apply hne
          apply List.eq_nil_of_length_eq_zero
          rw [List.length_drop]
          omega
        rw [List.length_take]
        omega
      · exact ih x h1

theorem chunksOf512_mem_length (l : List Nat) :
    ∀ c ∈ chunksOf512 l, 0 < c.length ∧ c.length ≤ 512 := by
  induction l using chunksOf512.induct with
  | case1 => simp [chunksOf512]
  | case2 b rest ih =>
    rw [chunksOf512]
    intro c hc
    rcases List.mem_cons.1 hc with h1 | h1
    · subst h1
      simp [List.length_take]
    · exact ih c h1

theorem chunks_of_1025 (l : List Nat) (h : l.length = 1025) :
    (chunksOf512 l).map List.length = [512, 512, 1] := by
  have h1 : l ≠ [] := by
    intro he
    rw [he] at h
    simp at h
  have h2 : l.drop 512 ≠ [] := by
    intro he
    have := congrArg List.length he
    simp [List.length_drop, h] at this
  have h3 : (l.drop 512).drop 512 ≠ [] := by
    intro he
    have := congrArg List.length he
    simp [List.length_drop, h] at this
  have h4 : ((l.drop 512).drop 512).drop 512 = [] := by
    apply List.eq_nil_of_length_eq_zero
    simp [List.length_drop, h]
  rw [chunksOf512_cons_ne_nil l h1, chunksOf512_cons_ne_nil _ h2,
    chunksOf512_cons_ne_nil _ h3, h4]
  simp [chunksOf512, List.length_take, List.length_drop, h]

/-- C6: `try_do_upload` sends the image as consecutive data chunks in image
order — their concatenation is the image, every chunk before the last is
exactly 512 bytes, and every chunk is nonempty and at most 512 bytes — each
chunk wrapped as a Data packet placed before the final Stop packet; an image
of 1025 bytes yields exactly the chunk sizes 512, 512, 1 in that order. -/
theorem upload_chunking (file : List Nat) :
    (chunksOf512 file).flatten = file ∧
    (∀ c ∈ (chunksOf512 file).dropLast, c.length = 512) ∧
    (∀ c ∈ chunksOf512 file, 0 < c.length ∧ c.length ≤ DFU_MAX_PACKET_SIZE) ∧
    try_do_upload_payloads file =
      start_dfu_payload file.length :: init_packet_payload file ::
        ((chunksOf512 file).map data_packet_payload ++ [stop_packet_payload]) ∧
    (file.length = 1025 → (chunksOf512 file).map List.length = [512, 512, 1]) :=
  ⟨chunksOf512_flatten file, chunksOf512_dropLast_length file,
    chunksOf512_mem_length file, rfl, chunks_of_1025 file⟩

/-- Witness for C6 at a concrete 1025-byte image. -/
theorem upload_chunking_witness :
    (chunksOf512 (List.replicate 1025 0)).map List.length = [512, 512, 1] :=
  (upload_chunking (List.replicate 1025 0)).2.2.2.2 (List.length_replicate 1025 0)

theorem range_map_shift (i j : Nat) :
    (List.range (j + 1)).map (fun x => i + x) =
      i :: (List.range j).map (fun x => (i + 1) + x) := by
  rw [List.range_succ_eq_map]
  simp only [List.map_cons, List.map_map, Nat.add_zero]
  congr 1
  exact List.map_congr_left (fun x hx => by simp [Function.comp]; omega)

theorem upload_loop_cont (numPorts : Nat) (hnp : ¬ numPorts = 1) :
    ∀ cands i errs, upload_loop false numPorts i errs cands =
      match firstOk cands with
      | some j => (.success (i + j), errs ++ (List.range j).map (fun x => i + x))
      | none => (.allFailed (errs ++ (List.range cands.length).map (fun x => i + x)),
                 errs ++ (List.range cands.length).map (fun x => i + x)) := by
  intro cands
  induction cands with
  | nil => intro i errs; simp [upload_loop, firstOk]
  | cons c rest ih =>
    intro i errs
    have hb : (numPorts == 1) = false := by
      simp [hnp]
    rw [upload_loop, firstOk]
    cases hc : isOk c with
    | true => simp
    | false =>
      simp only [Bool.false_eq_true, if_false, Bool.false_or, hb]
      rw [ih (i + 1) (errs ++ [i])]
      cases hf : firstOk rest with
      | some j =>
        simp only [Option.map_some']
        rw [range_map_shift]
        have e1 : i + (j + 1) = i + 1 + j := by omega
        simp [e1]
      | none =>
        simp only [Option.map_none', List.length_cons]
        rw [range_map_shift]
        simp

/-- C7: for every candidate list and per-candidate outcome assignment, a
candidate's failure is returned immediately as the overall result whenever
the mode stops on the first error or there is exactly one candidate;
otherwise the failure is recorded, a warning is emitted for it, and the next
candidate is attempted; if every candidate fails the overall result is the
aggregate all-ports-failed error (with all failures recorded), and the first
succeeding candidate yields its identifier with no later candidate
attempted. -/
theorem upload_policy (stopFirst : Bool) (cands : List CandOutcome) :
    (stopFirst = true ∨ cands.length = 1 →
      upload_internal stopFirst cands =
        match cands with
        | [] => (.allFailed [], [])
        | c :: _ => if isOk c then (.success 0, []) else (.failImmediate 0, [])) ∧
    (stopFirst = false → ¬ cands.length = 1 →
      upload_internal stopFirst cands =
        match firstOk cands with
        | some j => (.success j, List.range j)
        | none => (.allFailed (List.range cands.length), List.range cands.length)) := by
  constructor
  · intro h
    cases cands with
    | nil => simp [upload_internal, upload_loop]
    | cons c rest =>
      rw [upload_internal, upload_loop]
      cases hc : isOk c
      · have hb : (stopFirst || ((c :: rest).length == 1)) = true := by
          rcases h with h | h
          · simp [h]
          · simp only [h]
            simp
        rw [hb]
        simp [hc]
      · simp [hc]
  · intro h1 h2
    subst h1
    rw [upload_internal, upload_loop_cont cands.length h2 cands 0 []]
    cases hf : firstOk cands with
    | some j => simp
    | none => simp

/-- Witness for C7: continue-on-error mode with a failing first candidate
and a succeeding second one gives success on index 1 with one warning. -/
theorem upload_policy_witness :
    upload_internal false [CandOutcome.uploadErr, CandOutcome.ok] =
      (UploadResult.success 1, [0]) := by
  have h := (upload_policy false [CandOutcome.uploadErr, CandOutcome.ok]).2 rfl (by decide)
  simpa [firstOk, isOk] using h

end SerialUpload
